import Mathlib

/-!
Verification of the SitePulse scheduler/prober loop (`src/app.py`).

The core of the program is `pinger_worker` (app.py lines 34-76): an
infinite loop that, each iteration,
  * sleeps 60 s and retries when the Firestore client `db` was never
    initialized (lines 37-39);
  * otherwise enumerates every monitor of every user (lines 42-53),
    normalizes `lastChecked` (the Python default for a missing field is
    the `firestore.SERVER_TIMESTAMP` sentinel, which has no `timestamp`
    attribute, so the sentinel reaches the subtraction on line 52 and
    raises `TypeError` there), converts `interval` with `int(...)`
    (raising `ValueError` on a non-numeric value), and collects the
    monitors with `time.time() - last_checked > interval`;
  * probes each collected monitor (lines 55-72): a falsy URL is skipped
    with `continue`; `requests.get` failures (`RequestException`) are
    caught and mapped to status `'down'`; `response.ok` (HTTP status
    < 400) maps to `'up'`; the subsequent Firestore
    `monitor.reference.update({'status': ..., 'lastChecked':
    SERVER_TIMESTAMP})` is NOT wrapped in its own handler, so a
    `NotFound` from a concurrently deleted monitor escapes to the
    cycle-level handler;
  * any exception in the cycle body is caught by the `except Exception`
    on lines 73-74 (logged, never re-raised), and the loop sleeps 5 s
    (line 76) before the next iteration.

We embed these behaviors as pure functions below and prove/refute the
spec's claims about them.
-/

/-- The `lastChecked` field of a stored monitor record, as seen by
`monitor_data.get('lastChecked', firestore.SERVER_TIMESTAMP)`:
either absent (so the Python code receives the `SERVER_TIMESTAMP`
sentinel object, which has no `timestamp` attribute), a raw numeric
epoch value (e.g. the creation default `0` written by `add_monitor`),
or a store-native timestamp object whose `.timestamp()` method yields
epoch seconds. -/
inductive LastCheckedField where
  | absent : LastCheckedField
  | epoch : Int → LastCheckedField
  | storeNative : Int → LastCheckedField
deriving DecidableEq, Repr

/-- The `interval` field as seen by `int(monitor_data.get('interval', 60))`:
absent (defaulted to 60), a numeric value on which `int(...)` succeeds,
or a non-numeric value on which `int(...)` raises `ValueError`. -/
inductive IntervalField where
  | absent : IntervalField
  | num : Int → IntervalField
  | nonNumeric : IntervalField
deriving DecidableEq, Repr

/-- A monitor record as read from the store.  `id` stands for the opaque
document reference `(ownerId, monitorId)`; `url` is `none` when the
field is missing (Python `monitor_data.get('url')` returns `None`). -/
structure MonitorRecord where
  id : Nat
  url : Option String
  interval : IntervalField
  status : String
  lastChecked : LastCheckedField
deriving DecidableEq, Repr

/-- The exceptions that can arise inside the cycle body of
`pinger_worker` and reach the `except Exception` handler on line 73. -/
inductive PingerErr where
  | typeError : PingerErr
  | valueError : PingerErr
  | storeUnavailable : PingerErr
  | notFound : PingerErr
deriving DecidableEq, Repr

/-- Lines 48-50: `last_checked = monitor_data.get('lastChecked',
firestore.SERVER_TIMESTAMP)` followed by the `hasattr(last_checked,
'timestamp')` normalization.  A store-native timestamp is converted to
epoch seconds; a numeric value passes through; an absent field leaves
the `SERVER_TIMESTAMP` sentinel in `last_checked`, and the subtraction
`time.time() - last_checked` on line 52 then raises `TypeError`
(float minus sentinel object). -/
def normalizeLastChecked : LastCheckedField → Except PingerErr Int
  | LastCheckedField.absent => Except.error PingerErr.typeError
  | LastCheckedField.epoch t => Except.ok t
  | LastCheckedField.storeNative t => Except.ok t

/-- Line 51: `interval = int(monitor_data.get('interval', 60))`. -/
def getInterval : IntervalField → Except PingerErr Int
  | IntervalField.absent => Except.ok 60
  | IntervalField.num n => Except.ok n
  | IntervalField.nonNumeric => Except.error PingerErr.valueError

/-- Lines 48-52 for one monitor: the due test
`time.time() - last_checked > interval`.  Line 51 (`int(...)`) executes
before the subtraction on line 52, so a `ValueError` from a non-numeric
interval precedes the `TypeError` from an absent `lastChecked`. -/
def isDueCheck (now : Int) (m : MonitorRecord) : Except PingerErr Bool :=
  match getInterval m.interval with
  | Except.error e => Except.error e
  | Except.ok interval =>
    match normalizeLastChecked m.lastChecked with
    | Except.error e => Except.error e
    | Except.ok lastChecked => Except.ok (decide (now - lastChecked > interval))

/-- Lines 42-53: enumerate the monitors in order and collect those whose
due test passes; the first exception aborts the enumeration. -/
def selectDueList (now : Int) : List MonitorRecord → Except PingerErr (List MonitorRecord)
  | [] => Except.ok []
  | m :: rest =>
    match isDueCheck now m with
    | Except.error e => Except.error e
    | Except.ok due =>
      match selectDueList now rest with
      | Except.error e => Except.error e
      | Except.ok tail => Except.ok (if due then m :: tail else tail)

/-- Lines 41-53 including the store calls: `users_ref.stream()` /
`monitors_ref.stream()` raise when the store is unreachable
(`storeOk = false`), before any monitor is examined. -/
def selectDue (now : Int) (storeOk : Bool) (monitors : List MonitorRecord) :
    Except PingerErr (List MonitorRecord) :=
  if storeOk then selectDueList now monitors
  else Except.error PingerErr.storeUnavailable

/-- The possible outcomes of the single `requests.get(url, timeout=10, ...)`
call on line 62: an HTTP response with a status code, or one of the
network-level failures, all of which `requests` raises as subclasses of
`RequestException` and the handler on lines 65-66 catches. -/
inductive ProbeOutcome where
  | httpResponse : Nat → ProbeOutcome
  | connectionRefused : ProbeOutcome
  | dnsFailure : ProbeOutcome
  | timeout : ProbeOutcome
deriving DecidableEq, Repr

/-- Lines 59-66: `status = 'down'`; one GET; `if response.ok: status = 'up'`
(`response.ok` is HTTP status < 400); `except requests.RequestException`
leaves `'down'`.  Total: no outcome escapes as an exception. -/
def probe : ProbeOutcome → String
  | ProbeOutcome.httpResponse code => if code < 400 then "up" else "down"
  | ProbeOutcome.connectionRefused => "down"
  | ProbeOutcome.dnsFailure => "down"
  | ProbeOutcome.timeout => "down"

/-- One Firestore `monitor.reference.update({...})` call (lines 68-71):
the target document and the update dictionary, recorded as the list of
field names written plus the status value. -/
structure UpdateOp where
  target : Nat
  fieldsWritten : List String
  statusValue : String
deriving DecidableEq, Repr

/-- What one pass of the probing loop (lines 55-72) did: the ids for
which `requests.get` was issued, the update calls that completed, and
the exception (if any) that escaped to the cycle-level handler. -/
structure CycleTrace where
  probed : List Nat
  writes : List UpdateOp
  err : Option PingerErr
deriving DecidableEq, Repr

/-- Line 58: `if not url: continue` — `None` (missing field) and the
empty string are falsy in Python. -/
def urlFalsy : Option String → Bool
  | none => true
  | some s => s.isEmpty

/-- Lines 55-72: process the due monitors in order.  A falsy URL is
skipped; otherwise the monitor is probed and then updated with
`{'status': status, 'lastChecked': SERVER_TIMESTAMP}`.  The update call
is not wrapped in a handler of its own: when the target was deleted
concurrently, Firestore raises `NotFound`, which aborts the rest of the
loop (the remaining due monitors are neither probed nor written). -/
def processDue (net : String → ProbeOutcome) (deleted : Nat → Bool) :
    List MonitorRecord → CycleTrace
  | [] => { probed := [], writes := [], err := none }
  | m :: rest =>
    match m.url with
    | none => processDue net deleted rest
    | some u =>
      if u.isEmpty then processDue net deleted rest
      else
        let status := probe (net u)
        if deleted m.id then
          { probed := [m.id], writes := [], err := some PingerErr.notFound }
        else
          let t := processDue net deleted rest
          { probed := m.id :: t.probed,
            writes := { target := m.id,
                        fieldsWritten := ["status", "lastChecked"],
                        statusValue := status } :: t.writes,
            err := t.err }

/-- Lines 41-74, one cycle body inside the `try`: enumerate and select
the due monitors, then probe and write each.  Any exception is recorded
in `err` (it is caught on line 73 and never re-raised). -/
def runCycle (now : Int) (storeOk : Bool) (net : String → ProbeOutcome)
    (deleted : Nat → Bool) (monitors : List MonitorRecord) : CycleTrace :=
  match selectDue now storeOk monitors with
  | Except.error e => { probed := [], writes := [], err := some e }
  | Except.ok due => processDue net deleted due

/-- The observable result of one iteration of the `while True` loop
(lines 36-76): the writes performed, whether an exception escaped the
loop body (never: line 73 catches everything), and how long the
iteration sleeps before the next one. -/
structure IterationResult where
  writes : List UpdateOp
  probed : List Nat
  raised : Bool
  sleepSeconds : Nat
deriving DecidableEq, Repr

/-- One iteration of `pinger_worker`'s `while True` loop: if `db` was
never initialized, sleep 60 s and retry (lines 37-39); otherwise run a
cycle with everything caught on line 73, then sleep 5 s (line 76). -/
def pingerIteration (dbAvailable : Bool) (now : Int) (storeOk : Bool)
    (net : String → ProbeOutcome) (deleted : Nat → Bool)
    (monitors : List MonitorRecord) : IterationResult :=
  if dbAvailable then
    let t := runCycle now storeOk net deleted monitors
    { writes := t.writes, probed := t.probed, raised := false, sleepSeconds := 5 }
  else
    { writes := [], probed := [], raised := false, sleepSeconds := 60 }

/-- Apply one `update` call to the stored collection: the record whose
reference matches has its `status` and `lastChecked` fields replaced
(`lastChecked` becomes the server-side timestamp); every other record
and every other field is untouched. -/
def applyWrite (serverNow : Int) (ms : List MonitorRecord) (w : UpdateOp) :
    List MonitorRecord :=
  ms.map (fun r =>
    if r.id = w.target then
      { r with status := w.statusValue,
               lastChecked := LastCheckedField.storeNative serverNow }
    else r)

/-- Apply a cycle's update calls in order. -/
def applyWrites (serverNow : Int) (ms : List MonitorRecord)
    (ws : List UpdateOp) : List MonitorRecord :=
  ws.foldl (applyWrite serverNow) ms

/-! ## Helper lemmas -/

/-- The probe classifies every outcome as `"up"` or `"down"`; no outcome
escapes as an exception (lines 59-66 catch every `RequestException`). -/
theorem probe_up_or_down (outcome : ProbeOutcome) :
    probe outcome = "up" ∨ probe outcome = "down" := by
  cases outcome with
  | httpResponse code =>
    by_cases h : code < 400 <;> simp [probe, h]
  | connectionRefused => exact Or.inr rfl
  | dnsFailure => exact Or.inr rfl
  | timeout => exact Or.inr rfl

/-- `isDueCheck` computes the strict comparison when both fields
normalize. -/
theorem isDueCheck_eq_decide (now t i : Int) (m : MonitorRecord)
    (hl : normalizeLastChecked m.lastChecked = Except.ok t)
    (hi : getInterval m.interval = Except.ok i) :
    isDueCheck now m = Except.ok (decide (now - t > i)) := by
  unfold isDueCheck
  rw [hi, hl]

/-! ## Claim theorems -/

/-- C1: for every monitor whose fields normalize to epoch seconds `t`
and interval `i`, the due-set selection marks it due iff
`now - lastChecked > interval` (strict); in particular a monitor with
`now - lastChecked = interval` is not due. -/
theorem due_iff_strict (now t i : Int) (m : MonitorRecord)
    (hl : normalizeLastChecked m.lastChecked = Except.ok t)
    (hi : getInterval m.interval = Except.ok i) :
    (isDueCheck now m = Except.ok true ↔ now - t > i) ∧
    (now - t = i → isDueCheck now m = Except.ok false) := by
  have h := isDueCheck_eq_decide now t i m hl hi
  constructor
  · rw [h]
    simp
  · intro heq
    rw [h]
    simp only [Except.ok.injEq, decide_eq_false_iff_not]
    omega

/-- Witness for C1 at a concrete boundary input: `now = 100`,
`lastChecked = 40`, `interval = 60`, so `now - lastChecked = interval`
and the monitor is not due. -/
theorem due_iff_strict_witness :
    isDueCheck 100
      { id := 0, url := some "http://a", interval := IntervalField.num 60,
        status := "pending", lastChecked := LastCheckedField.epoch 40 } =
      Except.ok false :=
  (due_iff_strict 100 40 60
      { id := 0, url := some "http://a", interval := IntervalField.num 60,
        status := "pending", lastChecked := LastCheckedField.epoch 40 }
      rfl rfl).2 rfl

/-- C3: the probe classifies HTTP status in [200, 399] as `"up"`,
and connection refusal, DNS failure, timeout and HTTP status ≥ 400 as
`"down"`; every outcome yields a status string (total function: no
network error propagates to the loop). -/
theorem probe_classification :
    (∀ code : Nat, 200 ≤ code → code ≤ 399 →
        probe (ProbeOutcome.httpResponse code) = "up") ∧
    probe ProbeOutcome.connectionRefused = "down" ∧
    probe ProbeOutcome.dnsFailure = "down" ∧
    probe ProbeOutcome.timeout = "down" ∧
    (∀ code : Nat, 400 ≤ code →
        probe (ProbeOutcome.httpResponse code) = "down") ∧
    (∀ outcome : ProbeOutcome, probe outcome = "up" ∨ probe outcome = "down") := by
  refine ⟨?_, rfl, rfl, rfl, ?_, probe_up_or_down⟩
  · intro code h1 h2
    have h : code < 400 := by omega
    simp [probe, h]
  · intro code h
    have h4 : ¬ code < 400 := by omega
    simp [probe, h4]

/-- Witness for C3 at concrete status codes 301 and 404. -/
theorem probe_classification_witness :
    probe (ProbeOutcome.httpResponse 301) = "up" ∧
    probe (ProbeOutcome.httpResponse 404) = "down" :=
  ⟨probe_classification.1 301 (by decide) (by decide),
   probe_classification.2.2.2.2.1 404 (by decide)⟩

/-- C5: a cycle whose enumeration fails (store unreachable) performs
zero writes, and the failure does not raise past the loop boundary:
the iteration completes (raised = false) and sleeps before the next
tick. -/
theorem store_unavailable_zero_writes (now : Int) (net : String → ProbeOutcome)
    (deleted : Nat → Bool) (monitors : List MonitorRecord) :
    runCycle now false net deleted monitors =
      { probed := [], writes := [], err := some PingerErr.storeUnavailable } ∧
    (pingerIteration true now false net deleted monitors).writes = [] ∧
    (pingerIteration true now false net deleted monitors).raised = false := by
  refine ⟨rfl, rfl, rfl⟩

/-- C9: an iteration with the store client available sleeps 5 seconds;
one without it (unavailable at startup) sleeps 60 seconds; every
iteration sleeps a positive amount, so the loop never hot-spins. -/
theorem cadence_sleep (dbAvailable : Bool) (now : Int) (storeOk : Bool)
    (net : String → ProbeOutcome) (deleted : Nat → Bool)
    (monitors : List MonitorRecord) :
    (pingerIteration dbAvailable now storeOk net deleted monitors).sleepSeconds
      = (if dbAvailable then 5 else 60) ∧
    0 < (pingerIteration dbAvailable now storeOk net deleted monitors).sleepSeconds := by
  cases dbAvailable <;> simp [pingerIteration]

/-! ## Structural lemmas about the probing loop -/

/-- A monitor with a missing `url` field is skipped by line 58. -/
theorem processDue_cons_missing_url (net : String → ProbeOutcome)
    (deleted : Nat → Bool) (m : MonitorRecord) (rest : List MonitorRecord)
    (hu : m.url = none) :
    processDue net deleted (m :: rest) = processDue net deleted rest := by
  simp [processDue, hu]

/-- A monitor with an empty-string `url` is skipped by line 58. -/
theorem processDue_cons_empty_url (net : String → ProbeOutcome)
    (deleted : Nat → Bool) (m : MonitorRecord) (rest : List MonitorRecord)
    (u : String) (hu : m.url = some u) (he : u.isEmpty = true) :
    processDue net deleted (m :: rest) = processDue net deleted rest := by
  simp [processDue, hu, he]

/-- A monitor whose `url` is falsy (missing or empty) is skipped. -/
theorem processDue_cons_falsy (net : String → ProbeOutcome)
    (deleted : Nat → Bool) (m : MonitorRecord) (rest : List MonitorRecord)
    (h : urlFalsy m.url = true) :
    processDue net deleted (m :: rest) = processDue net deleted rest := by
  cases hu : m.url with
  | none => exact processDue_cons_missing_url net deleted m rest hu
  | some u =>
    rw [hu] at h
    simp only [urlFalsy] at h
    exact processDue_cons_empty_url net deleted m rest u hu h

/-- A deleted monitor with a usable URL is probed, and then the
`update` call raises `NotFound`, aborting the rest of the loop. -/
theorem processDue_cons_deleted (net : String → ProbeOutcome)
    (deleted : Nat → Bool) (m : MonitorRecord) (rest : List MonitorRecord)
    (u : String) (hu : m.url = some u) (he : u.isEmpty = false)
    (hd : deleted m.id = true) :
    processDue net deleted (m :: rest) =
      { probed := [m.id], writes := [], err := some PingerErr.notFound } := by
  simp [processDue, hu, he, hd]

/-- A live monitor with a usable URL is probed and written, then the
loop continues with the rest. -/
theorem processDue_cons_live (net : String → ProbeOutcome)
    (deleted : Nat → Bool) (m : MonitorRecord) (rest : List MonitorRecord)
    (u : String) (hu : m.url = some u) (he : u.isEmpty = false)
    (hd : deleted m.id = false) :
    processDue net deleted (m :: rest) =
      { probed := m.id :: (processDue net deleted rest).probed,
        writes := { target := m.id, fieldsWritten := ["status", "lastChecked"],
                    statusValue := probe (net u) } :: (processDue net deleted rest).writes,
        err := (processDue net deleted rest).err } := by
  simp [processDue, hu, he, hd]

/-- If processing a prefix raised an exception, appending more due
monitors changes nothing: they are never reached. -/
theorem processDue_append_of_err (net : String → ProbeOutcome)
    (deleted : Nat → Bool) (l1 l2 : List MonitorRecord) (e : PingerErr)
    (h : (processDue net deleted l1).err = some e) :
    processDue net deleted (l1 ++ l2) = processDue net deleted l1 := by
  induction l1 with
  | nil => simp [processDue] at h
  | cons m rest ih =>
    cases hu : m.url with
    | none =>
      rw [processDue_cons_missing_url net deleted m rest hu] at h
      rw [List.cons_append, processDue_cons_missing_url net deleted m _ hu,
          processDue_cons_missing_url net deleted m rest hu]
      exact ih h
    | some u =>
      cases he : u.isEmpty with
      | true =>
        rw [processDue_cons_empty_url net deleted m rest u hu he] at h
        rw [List.cons_append, processDue_cons_empty_url net deleted m _ u hu he,
            processDue_cons_empty_url net deleted m rest u hu he]
        exact ih h
      | false =>
        cases hd : deleted m.id with
        | true =>
          rw [List.cons_append, processDue_cons_deleted net deleted m _ u hu he hd,
              processDue_cons_deleted net deleted m rest u hu he hd]
        | false =>
          rw [processDue_cons_live net deleted m rest u hu he hd] at h
          rw [List.cons_append, processDue_cons_live net deleted m _ u hu he hd,
              processDue_cons_live net deleted m rest u hu he hd, ih h]

/-- If processing a prefix completed, processing the concatenation
concatenates the traces. -/
theorem processDue_append_of_ok (net : String → ProbeOutcome)
    (deleted : Nat → Bool) (l1 l2 : List MonitorRecord)
    (h : (processDue net deleted l1).err = none) :
    processDue net deleted (l1 ++ l2) =
      { probed := (processDue net deleted l1).probed ++
          (processDue net deleted l2).probed,
        writes := (processDue net deleted l1).writes ++
          (processDue net deleted l2).writes,
        err := (processDue net deleted l2).err } := by
  induction l1 with
  | nil => simp [processDue]
  | cons m rest ih =>
    cases hu : m.url with
    | none =>
      rw [processDue_cons_missing_url net deleted m rest hu] at h
      rw [List.cons_append, processDue_cons_missing_url net deleted m _ hu,
          processDue_cons_missing_url net deleted m rest hu]
      exact ih h
    | some u =>
      cases he : u.isEmpty with
      | true =>
        rw [processDue_cons_empty_url net deleted m rest u hu he] at h
        rw [List.cons_append, processDue_cons_empty_url net deleted m _ u hu he,
            processDue_cons_empty_url net deleted m rest u hu he]
        exact ih h
      | false =>
        cases hd : deleted m.id with
        | true =>
          rw [processDue_cons_deleted net deleted m rest u hu he hd] at h
          simp at h
        | false =>
          rw [processDue_cons_live net deleted m rest u hu he hd] at h
          rw [List.cons_append, processDue_cons_live net deleted m _ u hu he hd,
              processDue_cons_live net deleted m rest u hu he hd, ih h]
          simp

/-- Every id for which a probe was issued belongs to the processed list. -/
theorem processDue_probed_sublist (net : String → ProbeOutcome)
    (deleted : Nat → Bool) :
    ∀ l : List MonitorRecord,
      (processDue net deleted l).probed.Sublist (l.map MonitorRecord.id)
  | [] => by simp [processDue]
  | m :: rest => by
    cases hu : m.url with
    | none =>
      rw [processDue_cons_missing_url net deleted m rest hu, List.map_cons]
      exact (processDue_probed_sublist net deleted rest).cons m.id
    | some u =>
      cases he : u.isEmpty with
      | true =>
        rw [processDue_cons_empty_url net deleted m rest u hu he, List.map_cons]
        exact (processDue_probed_sublist net deleted rest).cons m.id
      | false =>
        cases hd : deleted m.id with
        | true =>
          rw [processDue_cons_deleted net deleted m rest u hu he hd, List.map_cons]
          exact (List.nil_sublist _).cons₂ m.id
        | false =>
          rw [processDue_cons_live net deleted m rest u hu he hd, List.map_cons]
          exact (processDue_probed_sublist net deleted rest).cons₂ m.id

/-- Every completed write targets an id that was probed. -/
theorem processDue_writes_targets_sublist (net : String → ProbeOutcome)
    (deleted : Nat → Bool) :
    ∀ l : List MonitorRecord,
      ((processDue net deleted l).writes.map UpdateOp.target).Sublist
        (processDue net deleted l).probed
  | [] => by simp [processDue]
  | m :: rest => by
    cases hu : m.url with
    | none =>
      rw [processDue_cons_missing_url net deleted m rest hu]
      exact processDue_writes_targets_sublist net deleted rest
    | some u =>
      cases he : u.isEmpty with
      | true =>
        rw [processDue_cons_empty_url net deleted m rest u hu he]
        exact processDue_writes_targets_sublist net deleted rest
      | false =>
        cases hd : deleted m.id with
        | true =>
          rw [processDue_cons_deleted net deleted m rest u hu he hd]
          exact List.nil_sublist _
        | false =>
          rw [processDue_cons_live net deleted m rest u hu he hd, List.map_cons]
          exact (processDue_writes_targets_sublist net deleted rest).cons₂ m.id

/-- A cycle performs at most as many writes as there are due monitors. -/
theorem processDue_writes_length_le (net : String → ProbeOutcome)
    (deleted : Nat → Bool) :
    ∀ l : List MonitorRecord,
      (processDue net deleted l).writes.length ≤ l.length
  | [] => by simp [processDue]
  | m :: rest => by
    cases hu : m.url with
    | none =>
      rw [processDue_cons_missing_url net deleted m rest hu]
      exact Nat.le_succ_of_le (processDue_writes_length_le net deleted rest)
    | some u =>
      cases he : u.isEmpty with
      | true =>
        rw [processDue_cons_empty_url net deleted m rest u hu he]
        exact Nat.le_succ_of_le (processDue_writes_length_le net deleted rest)
      | false =>
        cases hd : deleted m.id with
        | true =>
          rw [processDue_cons_deleted net deleted m rest u hu he hd]
          simp
        | false =>
          rw [processDue_cons_live net deleted m rest u hu he hd]
          simpa using processDue_writes_length_le net deleted rest

/-- When no exception occurred, the number of writes equals the number
of due monitors whose URL is present (non-falsy). -/
theorem processDue_ok_writes_length (net : String → ProbeOutcome)
    (deleted : Nat → Bool) :
    ∀ l : List MonitorRecord, (processDue net deleted l).err = none →
      (processDue net deleted l).writes.length =
        (l.filter (fun m => !(urlFalsy m.url))).length
  | [], _ => by simp [processDue]
  | m :: rest, h => by
    cases hu : m.url with
    | none =>
      rw [processDue_cons_missing_url net deleted m rest hu] at h ⊢
      rw [processDue_ok_writes_length net deleted rest h]
      simp [List.filter_cons, urlFalsy, hu]
    | some u =>
      cases he : u.isEmpty with
      | true =>
        rw [processDue_cons_empty_url net deleted m rest u hu he] at h ⊢
        rw [processDue_ok_writes_length net deleted rest h]
        simp [List.filter_cons, urlFalsy, hu, he]
      | false =>
        cases hd : deleted m.id with
        | true =>
          rw [processDue_cons_deleted net deleted m rest u hu he hd] at h
          simp at h
        | false =>
          rw [processDue_cons_live net deleted m rest u hu he hd] at h ⊢
          simp only [List.length_cons]
          rw [processDue_ok_writes_length net deleted rest h]
          simp [List.filter_cons, urlFalsy, hu, he]

/-- Eliminate a successful positive due test into its components. -/
theorem isDueCheck_ok_true_elim (now : Int) (m : MonitorRecord)
    (h : isDueCheck now m = Except.ok true) :
    ∃ t i, normalizeLastChecked m.lastChecked = Except.ok t ∧
      getInterval m.interval = Except.ok i ∧ now - t > i := by
  cases hi : getInterval m.interval with
  | error e =>
    unfold isDueCheck at h
    rw [hi] at h
    simp at h
  | ok i =>
    cases hl : normalizeLastChecked m.lastChecked with
    | error e =>
      unfold isDueCheck at h
      rw [hi, hl] at h
      simp at h
    | ok t =>
      rw [isDueCheck_eq_decide now t i m hl hi] at h
      simp at h
      exact ⟨t, i, rfl, rfl, h⟩

/-- A monitor that is due at `now` and whose record is unchanged is
still due at any later time: `elapsed` only grows. -/
theorem isDueCheck_monotone (now nowLater : Int) (m : MonitorRecord)
    (hle : now ≤ nowLater) (h : isDueCheck now m = Except.ok true) :
    isDueCheck nowLater m = Except.ok true := by
  obtain ⟨t, i, hl, hi, hgt⟩ := isDueCheck_ok_true_elim now m h
  rw [isDueCheck_eq_decide nowLater t i m hl hi]
  simp only [Except.ok.injEq, decide_eq_true_eq]
  omega

/-- The records of the store that carry a given document id. -/
def recordsWithId (i : Nat) (ms : List MonitorRecord) : List MonitorRecord :=
  ms.filter (fun r => r.id == i)

/-- One update call unfolded on a cons cell. -/
theorem applyWrite_cons (serverNow : Int) (r : MonitorRecord)
    (rest : List MonitorRecord) (w : UpdateOp) :
    applyWrite serverNow (r :: rest) w =
      (if r.id = w.target then
        { r with status := w.statusValue,
                 lastChecked := LastCheckedField.storeNative serverNow }
       else r) :: applyWrite serverNow rest w := by
  simp [applyWrite]

/-- An update call aimed at a different document leaves every record
with this id untouched. -/
theorem applyWrite_recordsWithId (serverNow : Int) (w : UpdateOp) (i : Nat)
    (h : w.target ≠ i) :
    ∀ ms : List MonitorRecord,
      recordsWithId i (applyWrite serverNow ms w) = recordsWithId i ms
  | [] => rfl
  | r :: rest => by
    have ih := applyWrite_recordsWithId serverNow w i h rest
    rw [applyWrite_cons]
    unfold recordsWithId at ih ⊢
    by_cases hr : r.id = w.target
    · rw [if_pos hr]
      have hid : ¬ r.id = i := fun hc => h (hr ▸ hc)
      simp only [List.filter_cons]
      simp [hid, ih]
    · rw [if_neg hr]
      simp only [List.filter_cons]
      by_cases hid : r.id = i
      · simp [hid, ih]
      · simp [hid, ih]

/-- A sequence of update calls none of which targets this id leaves
every record with this id untouched. -/
theorem applyWrites_recordsWithId (serverNow : Int) (i : Nat) :
    ∀ ws : List UpdateOp, (∀ w ∈ ws, w.target ≠ i) →
      ∀ ms : List MonitorRecord,
        recordsWithId i (applyWrites serverNow ms ws) = recordsWithId i ms
  | [], _, ms => rfl
  | w :: rest, h, ms => by
    have h1 : w.target ≠ i := h w (List.mem_cons_self w rest)
    have h2 : ∀ wr ∈ rest, wr.target ≠ i :=
      fun wr hw => h wr (List.mem_cons_of_mem w hw)
    have hfold : applyWrites serverNow ms (w :: rest) =
        applyWrites serverNow (applyWrite serverNow ms w) rest := rfl
    rw [hfold, applyWrites_recordsWithId serverNow i rest h2,
        applyWrite_recordsWithId serverNow w i h1 ms]

/-- Every completed update call writes exactly the `status` and
`lastChecked` fields, and its status value comes from the probe. -/
theorem processDue_writes_shape (net : String → ProbeOutcome)
    (deleted : Nat → Bool) :
    ∀ (l : List MonitorRecord) (w : UpdateOp),
      w ∈ (processDue net deleted l).writes →
      w.fieldsWritten = ["status", "lastChecked"] ∧
      (w.statusValue = "up" ∨ w.statusValue = "down")
  | [], w, hw => by simp [processDue] at hw
  | m :: rest, w, hw => by
    cases hu : m.url with
    | none =>
      rw [processDue_cons_missing_url net deleted m rest hu] at hw
      exact processDue_writes_shape net deleted rest w hw
    | some u =>
      cases he : u.isEmpty with
      | true =>
        rw [processDue_cons_empty_url net deleted m rest u hu he] at hw
        exact processDue_writes_shape net deleted rest w hw
      | false =>
        cases hd : deleted m.id with
        | true =>
          rw [processDue_cons_deleted net deleted m rest u hu he hd] at hw
          simp at hw
        | false =>
          rw [processDue_cons_live net deleted m rest u hu he hd] at hw
          rcases List.mem_cons.mp hw with hEq | hMem
          · subst hEq
            exact ⟨rfl, probe_up_or_down (net u)⟩
          · exact processDue_writes_shape net deleted rest w hMem

/-- C8: every write a cycle performs touches only the `status` and
`lastChecked` fields, and sets `status` only to `"up"` or `"down"`
(never back to `"pending"`). -/
theorem writes_frame (now : Int) (storeOk : Bool) (net : String → ProbeOutcome)
    (deleted : Nat → Bool) (monitors : List MonitorRecord) (w : UpdateOp)
    (hw : w ∈ (runCycle now storeOk net deleted monitors).writes) :
    w.fieldsWritten = ["status", "lastChecked"] ∧
    (w.statusValue = "up" ∨ w.statusValue = "down") := by
  unfold runCycle at hw
  cases hsel : selectDue now storeOk monitors with
  | error e =>
    rw [hsel] at hw
    simp at hw
  | ok due =>
    rw [hsel] at hw
    exact processDue_writes_shape net deleted due w hw

/-- A healthy, due, URL-bearing monitor used by several witnesses. -/
def mAlive : MonitorRecord :=
  { id := 7, url := some "http://alive.example", interval := IntervalField.num 60,
    status := "pending", lastChecked := LastCheckedField.epoch 0 }

/-- A network where every URL answers HTTP 200. -/
def netOk : String → ProbeOutcome := fun _ => ProbeOutcome.httpResponse 200

/-- A store where no monitor has been deleted concurrently. -/
def noneDeleted : Nat → Bool := fun _ => false

/-- Witness for C8: the one write of a concrete one-monitor cycle. -/
theorem writes_frame_witness :
    (UpdateOp.mk 7 ["status", "lastChecked"] "up").fieldsWritten =
      ["status", "lastChecked"] ∧
    ((UpdateOp.mk 7 ["status", "lastChecked"] "up").statusValue = "up" ∨
     (UpdateOp.mk 7 ["status", "lastChecked"] "up").statusValue = "down") :=
  writes_frame 1000 true netOk noneDeleted [mAlive]
    (UpdateOp.mk 7 ["status", "lastChecked"] "up") (by decide)

/-- A due, URL-bearing monitor that gets deleted concurrently. -/
def mDoomed : MonitorRecord :=
  { id := 1, url := some "http://doomed.example", interval := IntervalField.num 60,
    status := "up", lastChecked := LastCheckedField.epoch 0 }

/-- A second due, URL-bearing monitor placed after the doomed one. -/
def mAfter : MonitorRecord :=
  { id := 2, url := some "http://after.example", interval := IntervalField.num 60,
    status := "pending", lastChecked := LastCheckedField.epoch 0 }

/-- A store where exactly the monitor with id 1 has been deleted. -/
def onlyFirstDeleted : Nat → Bool := fun i => i == 1

/-- C4 counterexample: a cycle whose due set holds N = 2 monitors, of
which exactly one was deleted concurrently and none is malformed,
performs 0 status writes — not the N - 1 = 1 writes the claim
predicts, because the failed write aborts the remainder of the cycle. -/
theorem write_count_counterexample :
    [mDoomed, mAfter].length = 2 ∧
    ([mDoomed, mAfter].filter
      (fun m => onlyFirstDeleted m.id || urlFalsy m.url)).length = 1 ∧
    (processDue netOk onlyFirstDeleted [mDoomed, mAfter]).writes.length = 0 ∧
    ¬ (processDue netOk onlyFirstDeleted [mDoomed, mAfter]).writes.length = 2 - 1 := by
  refine ⟨rfl, rfl, rfl, by decide⟩

/-- C4 (amended): a cycle never performs more than N writes for N due
monitors, and (with distinct document ids) probes and writes each
monitor at most once; when no exception interrupts the loop, the write
count is exactly N minus the number of malformed (URL-less) monitors.
When a write fails, the cycle aborts, so the count can fall short by
more than the number of deleted/malformed monitors. -/
theorem write_count_bounds (net : String → ProbeOutcome) (deleted : Nat → Bool)
    (l : List MonitorRecord) (hnodup : (l.map MonitorRecord.id).Nodup) :
    (processDue net deleted l).writes.length ≤ l.length ∧
    ((processDue net deleted l).writes.map UpdateOp.target).Nodup ∧
    (processDue net deleted l).probed.Nodup ∧
    ((processDue net deleted l).err = none →
      (processDue net deleted l).writes.length =
        (l.filter (fun m => !(urlFalsy m.url))).length) := by
  have hprobed : (processDue net deleted l).probed.Nodup :=
    List.Nodup.sublist (processDue_probed_sublist net deleted l) hnodup
  refine ⟨processDue_writes_length_le net deleted l, ?_, hprobed,
    processDue_ok_writes_length net deleted l⟩
  exact List.Nodup.sublist (processDue_writes_targets_sublist net deleted l) hprobed

/-- Witness for C4 (amended) on a concrete two-monitor cycle with no
failures: both monitors are written exactly once. -/
theorem write_count_bounds_witness :
    (processDue netOk noneDeleted [mDoomed, mAfter]).writes.length ≤
      [mDoomed, mAfter].length ∧
    ((processDue netOk noneDeleted [mDoomed, mAfter]).writes.map
      UpdateOp.target).Nodup ∧
    (processDue netOk noneDeleted [mDoomed, mAfter]).probed.Nodup ∧
    ((processDue netOk noneDeleted [mDoomed, mAfter]).err = none →
      (processDue netOk noneDeleted [mDoomed, mAfter]).writes.length =
        ([mDoomed, mAfter].filter (fun m => !(urlFalsy m.url))).length) :=
  write_count_bounds netOk noneDeleted [mDoomed, mAfter] (by decide)

/-- C6 counterexample: when the first of two due monitors was deleted
concurrently, its `update` raises `NotFound`, which escapes to the
cycle-level handler: the second due monitor — well-formed and due — is
neither probed nor written that cycle, contrary to the claim that only
the one update is abandoned. -/
theorem not_found_aborts_counterexample :
    processDue netOk onlyFirstDeleted [mDoomed, mAfter] =
      { probed := [1], writes := [], err := some PingerErr.notFound } ∧
    isDueCheck 1000 mAfter = Except.ok true ∧
    ¬ mAfter.id ∈ (processDue netOk onlyFirstDeleted [mDoomed, mAfter]).probed ∧
    (processDue netOk onlyFirstDeleted [mDoomed, mAfter]).writes.length = 0 := by
  refine ⟨by decide, rfl, by decide, by decide⟩

/-- C6 (amended): a `NotFound` from a concurrently deleted monitor is
non-fatal to the LOOP — the exception is caught at the cycle boundary,
the iteration never raises, and the loop sleeps and re-ticks — but it
aborts the remainder of the CYCLE: the due monitors after the deleted
one in dispatch order are neither probed nor written that cycle. -/
theorem not_found_aborts_cycle (net : String → ProbeOutcome)
    (deleted : Nat → Bool) (l1 l2 : List MonitorRecord)
    (m : MonitorRecord) (u : String)
    (hok : (processDue net deleted l1).err = none)
    (hu : m.url = some u) (hne : u.isEmpty = false)
    (hd : deleted m.id = true) :
    processDue net deleted (l1 ++ m :: l2) =
      { probed := (processDue net deleted l1).probed ++ [m.id],
        writes := (processDue net deleted l1).writes,
        err := some PingerErr.notFound } ∧
    (∀ (dbAvailable : Bool) (now : Int) (storeOk : Bool)
        (net2 : String → ProbeOutcome) (deleted2 : Nat → Bool)
        (ms : List MonitorRecord),
      (pingerIteration dbAvailable now storeOk net2 deleted2 ms).raised = false) := by
  constructor
  · rw [processDue_append_of_ok net deleted l1 (m :: l2) hok,
        processDue_cons_deleted net deleted m l2 u hu hne hd]
    simp
  · intro dbAvailable now storeOk net2 deleted2 ms
    cases dbAvailable <;> rfl

/-- Witness for C6 (amended) on a concrete cycle: one completed write
before the deleted monitor, then the abort. -/
theorem not_found_aborts_cycle_witness :
    processDue netOk onlyFirstDeleted ([mAlive] ++ mDoomed :: [mAfter]) =
      { probed := (processDue netOk onlyFirstDeleted [mAlive]).probed ++ [mDoomed.id],
        writes := (processDue netOk onlyFirstDeleted [mAlive]).writes,
        err := some PingerErr.notFound } ∧
    (∀ (dbAvailable : Bool) (now : Int) (storeOk : Bool)
        (net2 : String → ProbeOutcome) (deleted2 : Nat → Bool)
        (ms : List MonitorRecord),
      (pingerIteration dbAvailable now storeOk net2 deleted2 ms).raised = false) :=
  not_found_aborts_cycle netOk onlyFirstDeleted [mAlive] [mAfter] mDoomed
    "http://doomed.example" (by decide) rfl (by decide) (by decide)

/-- A monitor whose `interval` field holds a non-numeric value. -/
def mBadInterval : MonitorRecord :=
  { id := 21, url := some "http://bad.example", interval := IntervalField.nonNumeric,
    status := "pending", lastChecked := LastCheckedField.epoch 0 }

/-- A well-formed due monitor listed after the malformed one. -/
def mGood : MonitorRecord :=
  { id := 22, url := some "http://good.example", interval := IntervalField.num 60,
    status := "pending", lastChecked := LastCheckedField.epoch 0 }

/-- A monitor whose `url` field is missing. -/
def mNoUrl : MonitorRecord :=
  { id := 31, url := none, interval := IntervalField.num 60,
    status := "pending", lastChecked := LastCheckedField.epoch 0 }

/-- C7 counterexample: a monitor with a non-numeric `interval` makes
`int(...)` raise during enumeration, aborting the whole cycle: the
other — due and well-formed — monitor is neither probed nor written,
contrary to the claim that it is skipped without affecting the rest. -/
theorem malformed_aborts_counterexample :
    runCycle 1000 true netOk noneDeleted [mBadInterval, mGood] =
      { probed := [], writes := [], err := some PingerErr.valueError } ∧
    isDueCheck 1000 mGood = Except.ok true ∧
    ¬ mGood.id ∈ (runCycle 1000 true netOk noneDeleted [mBadInterval, mGood]).probed := by
  refine ⟨by decide, rfl, by decide⟩

/-- A successful enumeration means every monitor's due test succeeded:
`selectDueList` only returns a due set when no per-monitor check
raised. -/
theorem selectDueList_ok_all_ok (now : Int) :
    ∀ (l : List MonitorRecord) (due : List MonitorRecord),
      selectDueList now l = Except.ok due →
      ∀ m ∈ l, ∃ b, isDueCheck now m = Except.ok b
  | [], _, _, m, hm => by simp at hm
  | a :: rest, due, h, m, hm => by
    cases ha : isDueCheck now a with
    | error e =>
      rw [selectDueList, ha] at h
      simp at h
    | ok b =>
      cases hr : selectDueList now rest with
      | error e =>
        rw [selectDueList, ha, hr] at h
        simp at h
      | ok tail =>
        rcases List.mem_cons.mp hm with hEq | hMem
        · exact ⟨b, hEq ▸ ha⟩
        · exact selectDueList_ok_all_ok now rest tail hr m hMem

/-- The first failing due test aborts the enumeration with its error:
if every monitor before `m` checks out and `m`'s check raises, the
whole enumeration raises that error. -/
theorem selectDueList_append_err (now : Int) (m : MonitorRecord)
    (e : PingerErr) (he : isDueCheck now m = Except.error e) :
    ∀ l1 l2 : List MonitorRecord,
      (∀ m' ∈ l1, ∃ b, isDueCheck now m' = Except.ok b) →
      selectDueList now (l1 ++ m :: l2) = Except.error e
  | [], l2, _ => by
    rw [List.nil_append, selectDueList, he]
  | a :: rest, l2, h => by
    obtain ⟨b, hb⟩ := h a (List.mem_cons_self a rest)
    have ih := selectDueList_append_err now m e he rest l2
      (fun m' hm' => h m' (List.mem_cons_of_mem a hm'))
    rw [List.cons_append, selectDueList, hb, ih]

/-- C7 (amended): a monitor with a missing (falsy) URL is skipped for
probing without aborting the cycle — removing it from the due list
changes nothing — but a monitor with a non-numeric `interval` raises
`ValueError` during enumeration, which aborts the whole cycle: no
monitor of that cycle is probed or written, wherever the malformed
monitor sits in the enumeration order; the exception is still caught
at the cycle boundary, so nothing escalates past the loop. -/
theorem malformed_handling :
    (∀ (net : String → ProbeOutcome) (deleted : Nat → Bool)
        (l1 l2 : List MonitorRecord) (m : MonitorRecord),
      urlFalsy m.url = true →
      processDue net deleted (l1 ++ m :: l2) = processDue net deleted (l1 ++ l2)) ∧
    (∀ (now : Int) (m : MonitorRecord),
      m.interval = IntervalField.nonNumeric →
      isDueCheck now m = Except.error PingerErr.valueError) ∧
    (∀ (now : Int) (net : String → ProbeOutcome) (deleted : Nat → Bool)
        (l1 l2 : List MonitorRecord) (m : MonitorRecord),
      m.interval = IntervalField.nonNumeric →
      (∀ m' ∈ l1, ∃ b, isDueCheck now m' = Except.ok b) →
      runCycle now true net deleted (l1 ++ m :: l2) =
        { probed := [], writes := [], err := some PingerErr.valueError } ∧
      (pingerIteration true now true net deleted (l1 ++ m :: l2)).raised = false) ∧
    (∀ (now : Int) (net : String → ProbeOutcome) (deleted : Nat → Bool)
        (monitors : List MonitorRecord) (m : MonitorRecord),
      m ∈ monitors → m.interval = IntervalField.nonNumeric →
      (runCycle now true net deleted monitors).probed = [] ∧
      (runCycle now true net deleted monitors).writes = [] ∧
      ¬ (runCycle now true net deleted monitors).err = none ∧
      (pingerIteration true now true net deleted monitors).raised = false) := by
  have hcheck : ∀ (now : Int) (m : MonitorRecord),
      m.interval = IntervalField.nonNumeric →
      isDueCheck now m = Except.error PingerErr.valueError := by
    intro now m hnn
    simp [isDueCheck, hnn, getInterval]
  refine ⟨?_, hcheck, ?_, ?_⟩
  · intro net deleted l1 l2 m hfalsy
    cases herr : (processDue net deleted l1).err with
    | some e =>
      rw [processDue_append_of_err net deleted l1 (m :: l2) e herr,
          processDue_append_of_err net deleted l1 l2 e herr]
    | none =>
      rw [processDue_append_of_ok net deleted l1 (m :: l2) herr,
          processDue_append_of_ok net deleted l1 l2 herr,
          processDue_cons_falsy net deleted m l2 hfalsy]
  · intro now net deleted l1 l2 m hnn hpre
    have h2 : selectDue now true (l1 ++ m :: l2) =
        Except.error PingerErr.valueError := by
      rw [selectDue, if_pos rfl]
      exact selectDueList_append_err now m PingerErr.valueError
        (hcheck now m hnn) l1 l2 hpre
    exact ⟨by simp [runCycle, h2], rfl⟩
  · intro now net deleted monitors m hmem hnn
    have habort : ∀ due : List MonitorRecord,
        ¬ selectDueList now monitors = Except.ok due := by
      intro due hok
      obtain ⟨b, hb⟩ := selectDueList_ok_all_ok now monitors due hok m hmem
      rw [hcheck now m hnn] at hb
      cases hb
    cases hsel : selectDueList now monitors with
    | error e =>
      have h2 : selectDue now true monitors = Except.error e := by
        rw [selectDue, if_pos rfl, hsel]
      refine ⟨?_, ?_, ?_, rfl⟩ <;> simp [runCycle, h2]
    | ok due => exact absurd hsel (habort due)

/-- Witness for C7 (amended): a URL-less monitor dropped from a
concrete due list, and a non-numeric-interval monitor aborting a
concrete cycle in which a well-formed due monitor precedes it. -/
theorem malformed_handling_witness :
    processDue netOk noneDeleted ([mAlive] ++ mNoUrl :: [mGood]) =
      processDue netOk noneDeleted ([mAlive] ++ [mGood]) ∧
    isDueCheck 1000 mBadInterval = Except.error PingerErr.valueError ∧
    runCycle 1000 true netOk noneDeleted ([mAlive] ++ mBadInterval :: [mGood]) =
      { probed := [], writes := [], err := some PingerErr.valueError } ∧
    (pingerIteration true 1000 true netOk noneDeleted
      ([mAlive] ++ mBadInterval :: [mGood])).raised = false ∧
    (runCycle 1000 true netOk noneDeleted [mAlive, mBadInterval, mGood]).writes = [] :=
  ⟨malformed_handling.1 netOk noneDeleted [mAlive] [mGood] mNoUrl rfl,
   malformed_handling.2.1 1000 mBadInterval rfl,
   (malformed_handling.2.2.1 1000 netOk noneDeleted [mAlive] [mGood] mBadInterval rfl
     (by intro m' hm'; rw [List.mem_singleton] at hm'; subst hm'; exact ⟨true, rfl⟩)).1,
   (malformed_handling.2.2.1 1000 netOk noneDeleted [mAlive] [mGood] mBadInterval rfl
     (by intro m' hm'; rw [List.mem_singleton] at hm'; subst hm'; exact ⟨true, rfl⟩)).2,
   (malformed_handling.2.2.2 1000 netOk noneDeleted [mAlive, mBadInterval, mGood]
     mBadInterval (by decide) rfl).2.1⟩

/-- A monitor whose `lastChecked` field is missing from the record. -/
def mNeverChecked : MonitorRecord :=
  { id := 41, url := some "http://never.example", interval := IntervalField.num 60,
    status := "pending", lastChecked := LastCheckedField.absent }

/-- C2 (code bug): a monitor whose `lastChecked` field is absent is NOT
marked due and is not normalized to epoch seconds.  The read default
`firestore.SERVER_TIMESTAMP` is a write-only sentinel with no
`timestamp` attribute, so `time.time() - last_checked` on line 52
raises `TypeError`, aborting the whole enumeration: the cycle probes
and writes nothing at all (the exception is still caught at the cycle
boundary, so the loop itself survives). -/
theorem absent_last_checked_raises (now : Int) (i : Int) (m : MonitorRecord)
    (hl : m.lastChecked = LastCheckedField.absent)
    (hi : getInterval m.interval = Except.ok i)
    (net : String → ProbeOutcome) (deleted : Nat → Bool)
    (rest : List MonitorRecord) :
    isDueCheck now m = Except.error PingerErr.typeError ∧
    runCycle now true net deleted (m :: rest) =
      { probed := [], writes := [], err := some PingerErr.typeError } ∧
    (pingerIteration true now true net deleted (m :: rest)).raised = false := by
  have h1 : isDueCheck now m = Except.error PingerErr.typeError := by
    unfold isDueCheck
    rw [hi, hl]
    simp [normalizeLastChecked]
  have h2 : selectDue now true (m :: rest) =
      Except.error PingerErr.typeError := by
    simp [selectDue, selectDueList, h1]
  exact ⟨h1, by simp [runCycle, h2], rfl⟩

/-- Witness for C2's code-bug theorem at a concrete record with the
`lastChecked` field absent. -/
theorem absent_last_checked_raises_witness :
    isDueCheck 1000 mNeverChecked = Except.error PingerErr.typeError ∧
    runCycle 1000 true netOk noneDeleted (mNeverChecked :: [mGood]) =
      { probed := [], writes := [], err := some PingerErr.typeError } ∧
    (pingerIteration true 1000 true netOk noneDeleted
      (mNeverChecked :: [mGood])).raised = false :=
  absent_last_checked_raises 1000 60 mNeverChecked rfl rfl netOk noneDeleted [mGood]

/-- C10: when an exception aborts a cycle partway through the due list,
every due monitor not yet reached in dispatch order is neither probed
nor written; every store record carrying its id is untouched by the
cycle's writes, and — being due with an unchanged record — it is still
due at any later time, so the next cycle selects it again. -/
theorem aborted_cycle_leaves_rest_untouched (net : String → ProbeOutcome)
    (deleted : Nat → Bool) (serverNow : Int) (l1 l2 : List MonitorRecord)
    (e : PingerErr) (m : MonitorRecord) (now nowLater : Int)
    (herr : (processDue net deleted l1).err = some e)
    (hm : m ∈ l2) (hid : ¬ m.id ∈ l1.map MonitorRecord.id)
    (hdue : isDueCheck now m = Except.ok true) (hle : now ≤ nowLater) :
    ¬ m.id ∈ (processDue net deleted (l1 ++ l2)).probed ∧
    (∀ w ∈ (processDue net deleted (l1 ++ l2)).writes, ¬ w.target = m.id) ∧
    (∀ ms : List MonitorRecord,
      recordsWithId m.id
        (applyWrites serverNow ms (processDue net deleted (l1 ++ l2)).writes) =
      recordsWithId m.id ms) ∧
    isDueCheck nowLater m = Except.ok true := by
  rw [processDue_append_of_err net deleted l1 l2 e herr]
  have hps := processDue_probed_sublist net deleted l1
  have hws := processDue_writes_targets_sublist net deleted l1
  have htargets : ∀ w ∈ (processDue net deleted l1).writes, ¬ w.target = m.id := by
    intro w hw hweq
    apply hid
    have h1 : w.target ∈ (processDue net deleted l1).probed :=
      hws.subset (List.mem_map_of_mem UpdateOp.target hw)
    have h2 : w.target ∈ l1.map MonitorRecord.id := hps.subset h1
    rw [hweq] at h2
    exact h2
  refine ⟨?_, htargets, ?_, isDueCheck_monotone now nowLater m hle hdue⟩
  · intro hmem
    exact hid (hps.subset hmem)
  · intro ms
    exact applyWrites_recordsWithId serverNow m.id
      (processDue net deleted l1).writes htargets ms

/-- Witness for C10: the concrete aborted cycle `[mDoomed] ++ [mAfter]`
leaves `mAfter` unprobed, unwritten, untouched in any store, and still
due at the later time 2000. -/
theorem aborted_cycle_leaves_rest_untouched_witness :
    ¬ mAfter.id ∈ (processDue netOk onlyFirstDeleted ([mDoomed] ++ [mAfter])).probed ∧
    (∀ w ∈ (processDue netOk onlyFirstDeleted ([mDoomed] ++ [mAfter])).writes,
      ¬ w.target = mAfter.id) ∧
    (∀ ms : List MonitorRecord,
      recordsWithId mAfter.id
        (applyWrites 555 ms
          (processDue netOk onlyFirstDeleted ([mDoomed] ++ [mAfter])).writes) =
      recordsWithId mAfter.id ms) ∧
    isDueCheck 2000 mAfter = Except.ok true :=
  aborted_cycle_leaves_rest_untouched netOk onlyFirstDeleted 555 [mDoomed] [mAfter]
    PingerErr.notFound mAfter 1000 2000 (by decide) (by decide) (by decide) rfl
    (by decide)
